import Mathlib

/-!
Verification development for the speech-metrics analysis engine of the
`voice_meter` repository (backend/app/services/speech_analysis_service.py and
backend/app/utils/{metrics,text}.py).

Python floats are modelled as exact rationals (`ℚ`), strings as `List Char`.
`round(x, n)` is modelled by `roundTo n`; Python rounds ties to even while
`roundTo` rounds ties up, a difference that is irrelevant for every statement
below (no concrete value sits on a tie).  Python's `\w` covers all Unicode
word characters; `isWordChar` models it on the repertoire the analyzer's own
tables use (ASCII letters, digits, underscore and the accented letters of the
extraction class).
-/

set_option autoImplicit false
set_option maxHeartbeats 1000000

/-! ## Characters and the tokenizer (`_extract_words`) -/

/-- Accented letters accepted by the word-extraction regex
`\b[a-záéíóúàèìòùâêîôûãõäëïöüç]+\b`. -/
def accentedClassChars : List Char :=
  ['á', 'é', 'í', 'ó', 'ú', 'à', 'è', 'ì', 'ò', 'ù', 'â', 'ê', 'î', 'ô', 'û',
   'ã', 'õ', 'ä', 'ë', 'ï', 'ö', 'ü', 'ç']

/-- A character matched by the regex character class of `_extract_words`. -/
def isClassLetter (c : Char) : Bool :=
  ('a' ≤ c && c ≤ 'z') || accentedClassChars.contains c

/-- Decimal digit test (`0`-`9`), stated with the character order. -/
def pyIsDigit (c : Char) : Bool :=
  '0' ≤ c && c ≤ '9'

/-- Model of Python's `\w` (word character) on the repertoire in scope. -/
def isWordChar (c : Char) : Bool :=
  isClassLetter c || ('A' ≤ c && c ≤ 'Z') || pyIsDigit c || c = '_'

/-- Model of `str.lower` on one character (ASCII range). -/
def pyLowerChar (c : Char) : Char :=
  if 'A' ≤ c ∧ c ≤ 'Z' then Char.ofNat (c.toNat + 32) else c

/-- Model of `str.lower` on a text. -/
def pyLowerList (text : List Char) : List Char :=
  text.map pyLowerChar

/-- Model of Python's `str` whitespace test (ASCII part). -/
def pyIsSpace (c : Char) : Bool :=
  c = ' ' || c = '\t' || c = '\n' || c = '\r' || c = '\x0b' || c = '\x0c'

/-- Model of `str.strip`. -/
def pyStrip (l : List Char) : List Char :=
  ((l.dropWhile pyIsSpace).reverse.dropWhile pyIsSpace).reverse

/-- Split a character list at every separator character, keeping empty chunks,
exactly like `re.split` on a single-character class.  The chunks are the
maximal runs of non-separator characters. -/
def splitOnSep (p : Char → Bool) : List Char → List (List Char)
  | [] => [[]]
  | c :: cs =>
    if p c then [] :: splitOnSep p cs
    else
      match splitOnSep p cs with
      | [] => [[c]]
      | r :: rs => (c :: r) :: rs

/-- Model of `_extract_words`: lowercase the text, take the maximal runs of
word characters, and keep exactly those consisting of class letters only
(`re.findall` with `\b` boundaries drops a letter run adjacent to any other
word character, such as a digit or an underscore). -/
def extractWords (text : List Char) : List (List Char) :=
  (splitOnSep (fun c => !isWordChar c) (pyLowerList text)).filter
    (fun w => !w.isEmpty && w.all isClassLetter)

/-! ## Rounding -/

/-- Model of Python's `round(q, n)` over the rationals. -/
def roundTo (n : ℕ) (q : ℚ) : ℚ :=
  ((round (q * 10 ^ n) : ℤ) : ℚ) / 10 ^ n


/-! ## Language detection tables (transcribed verbatim from the source) -/

/-- Table `PORTUGUESE_MARKERS` (a Python set literal; all entries distinct). -/
def ptMarkers : List (List Char) :=
  (["que", "não", "uma", "para", "com", "está", "isso", "mais",
    "como", "mas", "por", "muito", "também", "foi", "são", "tem",
    "seu", "sua", "ele", "ela", "você", "nós", "eles", "nosso",
    "esse", "essa", "aqui", "onde", "quando", "porque", "então",
    "até", "depois", "agora", "sempre", "ainda", "apenas", "sobre",
    "já", "fazer", "pode", "deve", "vai", "vou", "estou", "tinha",
    "seria", "podemos", "temos", "precisamos", "conseguimos"] : List String).map
    String.toList

/-- Table `ENGLISH_MARKERS` (the Python set literal repeats `have` and `been`;
the set collapses them, which `dedup` accounts for below). -/
def enMarkers : List (List Char) :=
  (["the", "and", "that", "have", "for", "not", "with", "you",
    "this", "but", "his", "from", "they", "were", "been", "have",
    "their", "would", "there", "what", "about", "which", "when",
    "make", "can", "will", "more", "these", "want", "way", "could",
    "people", "than", "first", "been", "who", "its", "now", "find",
    "because", "should", "think", "know", "going", "need", "really"] : List String).map
    String.toList

/-- Value of `len(PORTUGUESE_MARKERS)`: the cardinality of the marker set. -/
def ptMarkersCard : ℕ := ptMarkers.dedup.length

/-- Value of `len(ENGLISH_MARKERS)`: the cardinality of the marker set. -/
def enMarkersCard : ℕ := enMarkers.dedup.length

/-- The accented characters counted for the Portuguese character bonus
(`re.findall(r'[áéíóúàâêôãõç]', text.lower())`). -/
def ptAccentChars : List Char :=
  ['á', 'é', 'í', 'ó', 'ú', 'à', 'â', 'ê', 'ô', 'ã', 'õ', 'ç']

/-- The `LanguageDetection` dataclass. -/
structure LanguageDetection where
  detected_language : String
  confidence : ℚ
  portuguese_score : ℚ
  english_score : ℚ
  deriving DecidableEq

/-- Number of distinct extracted words that are Portuguese markers
(`len(words_set.intersection(PORTUGUESE_MARKERS))`). -/
def ptMatchCount (ws : List (List Char)) : ℕ :=
  (ws.dedup.filter (fun w => ptMarkers.contains w)).length

/-- Number of distinct extracted words that are English markers. -/
def enMatchCount (ws : List (List Char)) : ℕ :=
  (ws.dedup.filter (fun w => enMarkers.contains w)).length

/-- The Portuguese accented-character bonus:
`min(pt_chars / max(len(text), 1) * 100, 5)`. -/
def ptCharBonus (text : List Char) : ℚ :=
  min ((((pyLowerList text).filter (fun c => ptAccentChars.contains c)).length : ℚ) /
        (max text.length 1) * 100) 5

/-- Score `pt_score = (pt_matches / len(PORTUGUESE_MARKERS)) * 100 + pt_char_bonus`. -/
def ptScore (text : List Char) : ℚ :=
  ((ptMatchCount (extractWords text) : ℚ) / ptMarkersCard) * 100 + ptCharBonus text

/-- Score `en_score = (en_matches / len(ENGLISH_MARKERS)) * 100`. -/
def enScore (text : List Char) : ℚ :=
  ((enMatchCount (extractWords text) : ℚ) / enMarkersCard) * 100

/-- Model of `SpeechAnalysisService.detect_language`. -/
def detectLanguage (text : List Char) : LanguageDetection :=
  if (extractWords text).length = 0 then
    ⟨"unknown", 0, 0, 0⟩
  else
    let pt := ptScore text
    let en := enScore text
    if en < pt ∧ 5 < pt then
      ⟨"pt-BR", roundTo 2 (min (pt / (pt + en + 1/10)) (99/100)), roundTo 2 pt, roundTo 2 en⟩
    else if pt < en ∧ 5 < en then
      ⟨"en-US", roundTo 2 (min (en / (pt + en + 1/10)) (99/100)), roundTo 2 pt, roundTo 2 en⟩
    else
      ⟨"pt-BR", roundTo 2 (1/2), roundTo 2 pt, roundTo 2 en⟩

/-! ## Syllable counting -/

/-- Membership in `PORTUGUESE_VOWELS`. -/
def isPortugueseVowel (c : Char) : Bool :=
  (['a', 'e', 'i', 'o', 'u', 'á', 'é', 'í', 'ó', 'ú', 'à', 'è', 'ì', 'ò', 'ù',
    'â', 'ê', 'î', 'ô', 'û', 'ã', 'õ', 'ä', 'ë', 'ï', 'ö', 'ü'] : List Char).contains c

/-- Membership in `ENGLISH_VOWELS = set('aeiouy')`. -/
def isEnglishVowel (c : Char) : Bool :=
  (['a', 'e', 'i', 'o', 'u', 'y'] : List Char).contains c

/-- Counts vowel-run starts: the common loop `if is_vowel and not prev: n += 1`. -/
def runsLoop (isV : Char → Bool) : List Char → Bool → ℕ
  | [], _ => 0
  | c :: cs, prev => (if isV c && !prev then 1 else 0) + runsLoop isV cs (isV c)

/-- Number of maximal vowel runs in a word. -/
def vowelRunCount (isV : Char → Bool) (l : List Char) : ℕ :=
  runsLoop isV l false

/-- Model of the service's `_count_syllables_portuguese`: vowel runs, floor 1. -/
def countSyllablesPortugueseService (w : List Char) : ℕ :=
  max 1 (vowelRunCount isPortugueseVowel w)

/-- The loop of the service's `_count_syllables_english`: a final `'e'` is
skipped (`continue`) when the count so far is positive. -/
def enLoop : List Char → Bool → ℕ → ℕ
  | [], _, acc => acc
  | c :: cs, prev, acc =>
    if c = 'e' ∧ cs = [] ∧ 0 < acc then acc
    else enLoop cs (isEnglishVowel c) (acc + (if isEnglishVowel c && !prev then 1 else 0))

/-- The service's `-le` correction: a word ending in `le` after a consonant
gains one syllable (`word.endswith('le') and len(word) > 2 and word[-3] not in
ENGLISH_VOWELS`). -/
def leBonus (w : List Char) : ℕ :=
  match w.reverse with
  | 'e' :: 'l' :: c :: _ => if isEnglishVowel c then 0 else 1
  | _ => 0

/-- Model of the service's `_count_syllables_english` (the engine's counter):
lowercase, count vowel runs with the final-`e` skip, add the `-le` bonus,
floor 1.  It has no exception table and no `-ed` correction. -/
def countSyllablesEnglishService (w : List Char) : ℕ :=
  let wl := pyLowerList w
  max 1 (enLoop wl false 0 + leBonus wl)

/-- Closed form used to restate the engine loop: drop a trailing silent `e`
whenever the preceding characters already contain a vowel run. -/
def stripSilentE (v : List Char) : List Char :=
  if v.getLast? = some 'e' ∧ 1 ≤ vowelRunCount isEnglishVowel v.dropLast then v.dropLast else v

/-- The exception words of `utils/text.py`'s `_count_syllables_english`;
the source dict maps every one of them to 1 syllable. -/
def englishSyllableExceptions : List (List Char) :=
  (["the", "be", "are", "were", "have", "give", "live",
    "love", "move", "come"] : List String).map String.toList

/-- Model of `utils/text.py`'s `_count_syllables_english`: exceptions are
hard-coded to 1; then vowel runs with a post-hoc silent-`e` decrement
(`count > 1`), `-le` bonus, and `-ed` decrement unless the ending is `ted`
or `ded`; floor 1.  Empty (after strip) input returns 0. -/
def countSyllablesEnglishText (w : List Char) : ℕ :=
  let word := pyStrip (pyLowerList w)
  if word = [] then 0
  else if englishSyllableExceptions.contains word then 1
  else
    let c0 := vowelRunCount isEnglishVowel word
    let c1 := if word.getLast? = some 'e' ∧ 1 < c0 then c0 - 1 else c0
    let c2 := c1 + leBonus word
    let c3 :=
      if (['e', 'd'].isSuffixOf word ∧ 1 < c2) ∧
          ¬(['t', 'e', 'd'].isSuffixOf word ∨ ['d', 'e', 'd'].isSuffixOf word) then
        c2 - 1
      else c2
    max 1 c3

/-- Model of the service's `count_syllables` dispatcher: lowercase, strip,
drop non-word characters, return 0 for an empty result, then dispatch on the
language. -/
def countSyllables (w : List Char) (language : String) : ℕ :=
  let w1 := (pyStrip (pyLowerList w)).filter isWordChar
  if w1 = [] then 0
  else if language = "en-US" then countSyllablesEnglishService w1
  else countSyllablesPortugueseService w1

/-- Model of `count_syllables_text`: total syllables over the extracted words. -/
def countSyllablesText (text : List Char) (language : String) : ℕ :=
  ((extractWords text).map (fun w => countSyllables w language)).sum

/-! ## Segments, pauses and speech rate -/

/-- A transcription segment (`{'start': ..., 'end': ...}`); `stop` models the
`end` key. -/
structure SpeechSegment where
  start : ℚ
  stop : ℚ
  deriving DecidableEq

/-- The gaps between consecutive segments
(`segments[i]['start'] - segments[i-1]['end']`). -/
def segGaps (segs : List SpeechSegment) : List ℚ :=
  (segs.zip segs.tail).map (fun p => p.2.start - p.1.stop)

/-- The gaps counted as pauses: `gap >= MIN_PAUSE_DURATION` (0.25 s). -/
def pauseGaps (segs : List SpeechSegment) : List ℚ :=
  (segGaps segs).filter (fun g => decide ((1 : ℚ)/4 ≤ g))

/-- Total pause duration accumulated by `analyze_speech_rate`/`analyze_pauses`. -/
def pauseDuration (segs : List SpeechSegment) : ℚ :=
  (pauseGaps segs).sum

/-- Number of segment gaps of at least `LONG_PAUSE_THRESHOLD` (2.0 s). -/
def hesitationCount (segs : List SpeechSegment) : ℕ :=
  ((segGaps segs).filter (fun g => decide ((2 : ℚ) ≤ g))).length

/-- The `SpeechRateMetrics` dataclass. -/
structure SpeechRateMetrics where
  speaking_rate_spm : ℚ
  articulation_rate_spm : ℚ
  words_per_minute : ℚ
  total_duration_seconds : ℚ
  speech_duration_seconds : ℚ
  pause_duration_seconds : ℚ
  classification : String
  deriving DecidableEq

/-- Model of `analyze_speech_rate`. -/
def analyzeSpeechRate (text : List Char) (total_duration : ℚ) (language : String)
    (segs : List SpeechSegment) : SpeechRateMetrics :=
  let ws := extractWords text
  let syll := countSyllablesText text language
  let d := if total_duration ≤ 0 then 1 else total_duration
  let pause := pauseDuration segs
  let speech := max (1/10) (d - pause)
  let sr := ((syll : ℚ) / d) * 60
  let ar := ((syll : ℚ) / speech) * 60
  let wpm := ((ws.length : ℚ) / d) * 60
  let thr : ℚ × ℚ := if language = "en-US" then (200, 280) else (180, 250)
  let cls := if ar < thr.1 then "slow" else if thr.2 < ar then "fast" else "medium"
  ⟨roundTo 1 sr, roundTo 1 ar, roundTo 1 wpm, roundTo 2 d, roundTo 2 speech,
    roundTo 2 pause, cls⟩

/-- The `PauseMetrics` dataclass. -/
structure PauseMetrics where
  total_pauses : ℕ
  total_pause_duration : ℚ
  average_pause_duration : ℚ
  longest_pause : ℚ
  pauses_per_minute : ℚ
  pause_ratio : ℚ
  deriving DecidableEq

/-- Model of `analyze_pauses`.  `max(pauses)` is modelled by `foldl max 0`,
which agrees with it because every counted gap is positive and the branch only
runs when the list is non-empty. -/
def analyzePauses (total_duration : ℚ) (segs : List SpeechSegment) : PauseMetrics :=
  let ps := pauseGaps segs
  let n := ps.length
  let tot := ps.sum
  let avg := if 0 < n then tot / n else 0
  let lng := if 0 < n then ps.foldl max 0 else 0
  let ppm := if 0 < total_duration then ((n : ℚ) / total_duration) * 60 else 0
  let ratio := if 0 < total_duration then tot / total_duration else 0
  ⟨n, roundTo 2 tot, roundTo 2 avg, roundTo 2 lng, roundTo 1 ppm, roundTo 3 ratio⟩

/-! ## difflib.SequenceMatcher ratio

`analyze_fluency` compares adjacent words with
`SequenceMatcher(None, a, b).ratio()`.  With no junk (the words compared here
are far below the 200-character autojunk threshold, which this model omits),
`ratio` is `2 * M / (len(a) + len(b))` where `M` is the total size of the
matching blocks: recursively take the longest common substring (ties broken
by the earliest position in `a`, then in `b`) and recurse on the pieces to
its left and to its right. -/

/-- Length of the common prefix of two character lists. -/
def commonRun : List Char → List Char → ℕ
  | c :: cs, d :: ds => if c = d then commonRun cs ds + 1 else 0
  | _, _ => 0

/-- Model of `find_longest_match` over whole lists: the longest common substring as
`(start in a, start in b, size)`, scanning start positions in lexicographic
order and keeping the first strict improvement. -/
def longestMatch (a b : List Char) : ℕ × ℕ × ℕ :=
  (List.range a.length).foldl
    (fun best si =>
      (List.range b.length).foldl
        (fun best sj =>
          let k := commonRun (a.drop si) (b.drop sj)
          if best.2.2 < k then (si, sj, k) else best)
        best)
    (0, 0, 0)

/-- Total size of the matching blocks (`sum(size for _, _, size in
get_matching_blocks())`).  The bounds check in the guard always holds for
`longestMatch`'s result; it is carried in the definition to justify
termination. -/
def matchTotal (a b : List Char) : ℕ :=
  if _h : 0 < (longestMatch a b).2.2 ∧ (longestMatch a b).1 + (longestMatch a b).2.2 ≤ a.length ∧
      (longestMatch a b).2.1 + (longestMatch a b).2.2 ≤ b.length then
    (longestMatch a b).2.2 +
      matchTotal (a.take (longestMatch a b).1) (b.take (longestMatch a b).2.1) +
      matchTotal (a.drop ((longestMatch a b).1 + (longestMatch a b).2.2))
        (b.drop ((longestMatch a b).2.1 + (longestMatch a b).2.2))
  else 0
termination_by a.length + b.length
decreasing_by
  · simp only [List.length_take]
    omega
  · simp only [List.length_drop]
    omega

/-- Model of `SequenceMatcher.ratio()` (via `_calculate_ratio`). -/
def ratioQ (a b : List Char) : ℚ :=
  if a.length + b.length = 0 then 1
  else 2 * (matchTotal a b : ℚ) / ((a.length : ℚ) + b.length)

/-! ## Fluency analysis -/

/-- Repetition count: adjacent identical extracted words. -/
def repetitionCount (text : List Char) : ℕ :=
  (((extractWords text).zip (extractWords text).tail).filter
    (fun p => decide (p.1 = p.2))).length

/-- Self-correction test on one adjacent pair: different words whose
`SequenceMatcher` ratio lies strictly between 0.5 and 0.9. -/
def isSelfCorrection (a b : List Char) : Bool :=
  !decide (a = b) && decide ((1 : ℚ)/2 < ratioQ a b ∧ ratioQ a b < 9/10)

/-- Self-correction count over adjacent extracted-word pairs. -/
def selfCorrectionCount (text : List Char) : ℕ :=
  (((extractWords text).zip (extractWords text).tail).filter
    (fun p => isSelfCorrection p.1 p.2)).length

/-- Words of a sentence chunk, as `str.split` (whitespace runs, no empties). -/
def pySplitWords (s : List Char) : List (List Char) :=
  (splitOnSep pyIsSpace s).filter (fun w => !w.isEmpty)

/-- Incomplete-sentence count: split the raw text on `.`, `!`, `?`; count the
chunks with non-empty stripped content and fewer than 3 words. -/
def incompleteSentenceCount (text : List Char) : ℕ :=
  ((splitOnSep (fun c => c = '.' || c = '!' || c = '?') text).filter
    (fun s => decide ((pySplitWords (pyStrip s)).length < 3) &&
      !(pyStrip s).isEmpty)).length

/-- Hesitation rate: hesitations per minute, 0 when the duration is not
positive. -/
def hesitationRate (total_duration : ℚ) (segs : List SpeechSegment) : ℚ :=
  if 0 < total_duration then ((hesitationCount segs : ℚ) / total_duration) * 60 else 0

/-- The `FluencyMetrics` dataclass. -/
structure FluencyMetrics where
  fluency_score : ℚ
  hesitation_rate : ℚ
  repetition_count : ℕ
  self_corrections_count : ℕ
  incomplete_sentences : ℕ
  deriving DecidableEq

/-- Model of `analyze_fluency`. -/
def analyzeFluency (text : List Char) (total_duration : ℚ)
    (segs : List SpeechSegment) : FluencyMetrics :=
  let ws := extractWords text
  let reps := repetitionCount text
  let sc := selfCorrectionCount text
  let inc := incompleteSentenceCount text
  let hr := hesitationRate total_duration segs
  let penalty : ℚ :=
    if 0 < ws.length then
      ((reps : ℚ) / ws.length) * 20 + ((sc : ℚ) / ws.length) * 15 + hr * 5 + (inc : ℚ) * 3
    else 0
  let score := max 0 (min 100 (100 - penalty))
  ⟨roundTo 1 score, roundTo 2 hr, reps, sc, inc⟩

/-! ## Vocabulary analysis -/

/-- Table `PORTUGUESE_FILLERS`. -/
def ptFillers : List (List Char) :=
  (["é", "hum", "uhm", "ah", "eh", "ahn", "então", "tipo",
    "né", "sabe", "entende", "assim", "bom", "bem", "olha",
    "veja", "pois", "enfim", "basicamente", "literalmente"] : List String).map
    String.toList

/-- Table `ENGLISH_FILLERS` (the multi-word entries can never match a single
extracted word but are kept verbatim). -/
def enFillers : List (List Char) :=
  (["um", "uh", "uhm", "er", "ah", "like", "you know", "basically",
    "literally", "actually", "honestly", "right", "okay", "so",
    "well", "i mean", "kind of", "sort of", "anyway", "whatever"] : List String).map
    String.toList

/-- Table `PORTUGUESE_FUNCTION_WORDS`. -/
def ptFunctionWords : List (List Char) :=
  (["o", "a", "os", "as", "um", "uma", "uns", "umas",
    "de", "da", "do", "das", "dos", "em", "na", "no", "nas", "nos",
    "por", "para", "com", "sem", "sob", "sobre",
    "e", "ou", "mas", "porém", "contudo", "todavia",
    "que", "qual", "quais", "quem", "onde", "quando", "como",
    "eu", "tu", "ele", "ela", "nós", "vós", "eles", "elas",
    "me", "te", "se", "nos", "vos", "lhe", "lhes",
    "meu", "minha", "teu", "tua", "seu", "sua", "nosso", "nossa",
    "este", "esta", "esse", "essa", "aquele", "aquela",
    "isto", "isso", "aquilo", "ser", "estar", "ter", "haver",
    "é", "são", "foi", "foram", "será", "seria"] : List String).map
    String.toList

/-- Table `ENGLISH_FUNCTION_WORDS`. -/
def enFunctionWords : List (List Char) :=
  (["the", "a", "an", "this", "that", "these", "those",
    "i", "you", "he", "she", "it", "we", "they", "me", "him", "her", "us", "them",
    "my", "your", "his", "her", "its", "our", "their",
    "mine", "yours", "hers", "ours", "theirs",
    "is", "am", "are", "was", "were", "be", "been", "being",
    "have", "has", "had", "do", "does", "did",
    "will", "would", "shall", "should", "can", "could", "may", "might", "must",
    "and", "or", "but", "if", "because", "as", "until", "while",
    "of", "at", "by", "for", "with", "about", "against", "between", "into",
    "through", "during", "before", "after", "above", "below", "to", "from",
    "up", "down", "in", "out", "on", "off", "over", "under",
    "who", "whom", "which", "what", "where", "when", "why", "how",
    "all", "each", "every", "both", "few", "more", "most", "other", "some", "such",
    "no", "nor", "not", "only", "own", "same", "so", "than", "too", "very",
    "just", "also", "now", "here", "there", "then"] : List String).map
    String.toList

/-- Table `PORTUGUESE_COMPLEX_SUFFIXES`. -/
def ptComplexSuffixes : List (List Char) :=
  (["mente", "ção", "ções", "dade", "ismo", "ista",
    "ível", "ável", "ência", "ância", "mento", "tivo"] : List String).map
    String.toList

/-- Table `ENGLISH_COMPLEX_SUFFIXES`. -/
def enComplexSuffixes : List (List Char) :=
  (["tion", "sion", "ness", "ment", "able", "ible", "ful", "less",
    "ous", "ive", "ity", "ism", "ist", "ology", "ical", "ally"] : List String).map
    String.toList

/-- The `VocabularyMetrics` dataclass. -/
structure VocabularyMetrics where
  total_words : ℕ
  unique_words : ℕ
  vocabulary_richness : ℚ
  average_word_length : ℚ
  complex_words_count : ℕ
  complex_words_ratio : ℚ
  filler_words_count : ℕ
  filler_words_ratio : ℚ
  lexical_density : ℚ
  deriving DecidableEq

/-- Model of `analyze_vocabulary` (`COMPLEX_WORD_MIN_LENGTH = 10`). -/
def analyzeVocabulary (text : List Char) (language : String) : VocabularyMetrics :=
  let ws := extractWords text
  if ws.length = 0 then ⟨0, 0, 0, 0, 0, 0, 0, 0, 0⟩
  else
    let total := ws.length
    let uniq := ws.dedup.length
    let richness := (uniq : ℚ) / total
    let avgLen := (((ws.map List.length).sum : ℚ)) / total
    let fillers := if language = "en-US" then enFillers else ptFillers
    let functionWords := if language = "en-US" then enFunctionWords else ptFunctionWords
    let suffixes := if language = "en-US" then enComplexSuffixes else ptComplexSuffixes
    let complexCount :=
      (ws.filter (fun w => decide (10 ≤ w.length) ||
        suffixes.any (fun sfx => sfx.isSuffixOf w))).length
    let fillerCount := (ws.filter (fun w => fillers.contains w)).length
    let contentCount := (ws.filter (fun w => !functionWords.contains w)).length
    ⟨total, uniq, roundTo 3 richness, roundTo 2 avgLen,
      complexCount, roundTo 3 ((complexCount : ℚ) / total),
      fillerCount, roundTo 3 ((fillerCount : ℚ) / total),
      roundTo 3 ((contentCount : ℚ) / total)⟩

/-! ## Standalone helpers from `utils/metrics.py` -/

/-- Model of `calculate_ttr`. -/
def calculate_ttr (words : List (List Char)) : ℚ :=
  if words = [] then 0 else (words.dedup.length : ℚ) / words.length

/-- Model of `calculate_fluency_score`: start at 100, add a +10 bonus for
sustained fluency (more than 100 words and combined filler/repetition ratio
below 0.05), subtract the filler, repetition and false-start penalties, floor
at 0. -/
def calculate_fluency_score (filler_ratio repetition_ratio : ℚ)
    (false_start_count total_words : ℕ) : ℚ :=
  let filler_penalty := filler_ratio * 2000
  let repetition_penalty := repetition_ratio * 1500
  let false_start_penalty := (false_start_count : ℚ) * 5
  let score : ℚ :=
    if 100 < total_words ∧ filler_ratio + repetition_ratio < 1/20 then 100 + 10 else 100
  max 0 (score - filler_penalty - repetition_penalty - false_start_penalty)

/-! ## Scoring -/

/-- Model of `_score_speech_rate`: 100 inside the language's ideal WPM band,
else 2 points of penalty per WPM of distance, floored at 0. -/
def scoreSpeechRate (sr : SpeechRateMetrics) (language : String) : ℚ :=
  let ideal : ℚ × ℚ := if language = "en-US" then (150, 180) else (140, 170)
  let wpm := sr.words_per_minute
  if ideal.1 ≤ wpm ∧ wpm ≤ ideal.2 then 100
  else
    let distance := if wpm < ideal.1 then ideal.1 - wpm else wpm - ideal.2
    max 0 (100 - distance * 2)

/-- Model of `_score_pauses`. -/
def scorePauses (p : PauseMetrics) : ℚ :=
  let base : ℚ :=
    if 1/10 ≤ p.pause_ratio ∧ p.pause_ratio ≤ 1/4 then 100
    else if p.pause_ratio < 1/10 then 80
    else max 0 (100 - (p.pause_ratio - 1/4) * 200)
  let base := if 3 < p.longest_pause then base - 10 else base
  max 0 base

/-- Model of `_score_vocabulary`. -/
def scoreVocabulary (v : VocabularyMetrics) : ℚ :=
  max 0 (min 100
    (50 + v.vocabulary_richness * 30 + min (v.complex_words_ratio * 50) 15 -
      v.filler_words_ratio * 50))

/-- The weighted overall score computed in `analyze_comprehensive`. -/
def overallScore (sr : SpeechRateMetrics) (p : PauseMetrics) (v : VocabularyMetrics)
    (f : FluencyMetrics) (language : String) : ℚ :=
  roundTo 1 (scoreSpeechRate sr language * (1/4) + scorePauses p * (3/20) +
    scoreVocabulary v * (1/4) + f.fluency_score * (7/20))

/-! ## Feedback generation

Each message appended by `generate_feedback` is modelled by one constructor
carrying the values the source interpolates into the string; string rendering
is presentation only. -/

/-- One feedback or recommendation message of `generate_feedback`. -/
inductive FeedbackMsg where
  | enLanguage (confidence : ℚ)
  | enFast
  | enSlow
  | enPaceOk
  | enRateBelow (wpm : ℚ)
  | enRateAbove (wpm : ℚ)
  | enRateIdeal (wpm : ℚ)
  | enManyPauses
  | enFewPauses
  | enLongPause (p : ℚ)
  | enRepetitiveVocab
  | enRichVocab
  | enHighFillers (count : ℕ)
  | enComplexVocab
  | enExcellentFluency
  | enGoodFluency
  | enImproveFluency
  | enRepetitions (count : ℕ)
  | enSelfCorrections (count : ℕ)
  | enRecSlowDown
  | enRecSpeedUp
  | enRecReducePauses
  | enRecStrategicPauses
  | enRecSynonyms
  | enRecReduceFillers
  | enRecAvoidReps
  | enRecPractice
  | ptLanguage (confidence : ℚ)
  | ptFast
  | ptSlow
  | ptPaceOk
  | ptRateBelow (wpm : ℚ)
  | ptRateAbove (wpm : ℚ)
  | ptRateIdeal (wpm : ℚ)
  | ptManyPauses
  | ptFewPauses
  | ptLongPause (p : ℚ)
  | ptRepetitiveVocab
  | ptRichVocab
  | ptHighFillers (count : ℕ)
  | ptComplexVocab
  | ptExcellentFluency
  | ptGoodFluency
  | ptImproveFluency
  | ptRepetitions (count : ℕ)
  | ptSelfCorrections (count : ℕ)
  | ptRecSlowDown
  | ptRecSpeedUp
  | ptRecReducePauses
  | ptRecStrategicPauses
  | ptRecSynonyms
  | ptRecReduceFillers
  | ptRecAvoidReps
  | ptRecPractice

/-- Model of `generate_feedback`: the pair (feedback, recommendations), with
the messages in the order the source appends them. -/
def generateFeedback (ld : LanguageDetection) (sr : SpeechRateMetrics)
    (p : PauseMetrics) (v : VocabularyMetrics) (f : FluencyMetrics) :
    List FeedbackMsg × List FeedbackMsg :=
  if ld.detected_language = "en-US" then
    ([FeedbackMsg.enLanguage ld.confidence] ++
      (if sr.classification = "fast" then [FeedbackMsg.enFast]
        else if sr.classification = "slow" then [FeedbackMsg.enSlow]
        else [FeedbackMsg.enPaceOk]) ++
      (if sr.words_per_minute < 150 then [FeedbackMsg.enRateBelow sr.words_per_minute]
        else if 180 < sr.words_per_minute then [FeedbackMsg.enRateAbove sr.words_per_minute]
        else [FeedbackMsg.enRateIdeal sr.words_per_minute]) ++
      (if 3/10 < p.pause_ratio then [FeedbackMsg.enManyPauses]
        else if p.pause_ratio < 1/10 ∧ 10 < sr.total_duration_seconds then
          [FeedbackMsg.enFewPauses]
        else []) ++
      (if 3 < p.longest_pause then [FeedbackMsg.enLongPause p.longest_pause] else []) ++
      (if v.vocabulary_richness < 2/5 then [FeedbackMsg.enRepetitiveVocab]
        else if 7/10 < v.vocabulary_richness then [FeedbackMsg.enRichVocab]
        else []) ++
      (if 1/10 < v.filler_words_ratio then [FeedbackMsg.enHighFillers v.filler_words_count]
        else []) ++
      (if 15/100 < v.complex_words_ratio then [FeedbackMsg.enComplexVocab] else []) ++
      (if 80 ≤ f.fluency_score then [FeedbackMsg.enExcellentFluency]
        else if 60 ≤ f.fluency_score then [FeedbackMsg.enGoodFluency]
        else [FeedbackMsg.enImproveFluency]) ++
      (if 3 < f.repetition_count then [FeedbackMsg.enRepetitions f.repetition_count]
        else []) ++
      (if 2 < f.self_corrections_count then
        [FeedbackMsg.enSelfCorrections f.self_corrections_count]
        else []),
     (if sr.classification = "fast" then [FeedbackMsg.enRecSlowDown]
        else if sr.classification = "slow" then [FeedbackMsg.enRecSpeedUp]
        else []) ++
      (if 3/10 < p.pause_ratio then [FeedbackMsg.enRecReducePauses]
        else if p.pause_ratio < 1/10 ∧ 10 < sr.total_duration_seconds then
          [FeedbackMsg.enRecStrategicPauses]
        else []) ++
      (if v.vocabulary_richness < 2/5 then [FeedbackMsg.enRecSynonyms] else []) ++
      (if 1/10 < v.filler_words_ratio then [FeedbackMsg.enRecReduceFillers] else []) ++
      (if 3 < f.repetition_count then [FeedbackMsg.enRecAvoidReps] else []) ++
      (if 2 < f.self_corrections_count then [FeedbackMsg.enRecPractice] else []))
  else
    ([FeedbackMsg.ptLanguage ld.confidence] ++
      (if sr.classification = "fast" then [FeedbackMsg.ptFast]
        else if sr.classification = "slow" then [FeedbackMsg.ptSlow]
        else [FeedbackMsg.ptPaceOk]) ++
      (if sr.words_per_minute < 140 then [FeedbackMsg.ptRateBelow sr.words_per_minute]
        else if 170 < sr.words_per_minute then [FeedbackMsg.ptRateAbove sr.words_per_minute]
        else [FeedbackMsg.ptRateIdeal sr.words_per_minute]) ++
      (if 3/10 < p.pause_ratio then [FeedbackMsg.ptManyPauses]
        else if p.pause_ratio < 1/10 ∧ 10 < sr.total_duration_seconds then
          [FeedbackMsg.ptFewPauses]
        else []) ++
      (if 3 < p.longest_pause then [FeedbackMsg.ptLongPause p.longest_pause] else []) ++
      (if v.vocabulary_richness < 2/5 then [FeedbackMsg.ptRepetitiveVocab]
        else if 7/10 < v.vocabulary_richness then [FeedbackMsg.ptRichVocab]
        else []) ++
      (if 1/10 < v.filler_words_ratio then [FeedbackMsg.ptHighFillers v.filler_words_count]
        else []) ++
      (if 15/100 < v.complex_words_ratio then [FeedbackMsg.ptComplexVocab] else []) ++
      (if 80 ≤ f.fluency_score then [FeedbackMsg.ptExcellentFluency]
        else if 60 ≤ f.fluency_score then [FeedbackMsg.ptGoodFluency]
        else [FeedbackMsg.ptImproveFluency]) ++
      (if 3 < f.repetition_count then [FeedbackMsg.ptRepetitions f.repetition_count]
        else []) ++
      (if 2 < f.self_corrections_count then
        [FeedbackMsg.ptSelfCorrections f.self_corrections_count]
        else []),
     (if sr.classification = "fast" then [FeedbackMsg.ptRecSlowDown]
        else if sr.classification = "slow" then [FeedbackMsg.ptRecSpeedUp]
        else []) ++
      (if 3/10 < p.pause_ratio then [FeedbackMsg.ptRecReducePauses]
        else if p.pause_ratio < 1/10 ∧ 10 < sr.total_duration_seconds then
          [FeedbackMsg.ptRecStrategicPauses]
        else []) ++
      (if v.vocabulary_richness < 2/5 then [FeedbackMsg.ptRecSynonyms] else []) ++
      (if 1/10 < v.filler_words_ratio then [FeedbackMsg.ptRecReduceFillers] else []) ++
      (if 3 < f.repetition_count then [FeedbackMsg.ptRecAvoidReps] else []) ++
      (if 2 < f.self_corrections_count then [FeedbackMsg.ptRecPractice] else []))

/-! ## Helper lemmas -/

theorem roundTo_mono {n : ℕ} {q r : ℚ} (h : q ≤ r) : roundTo n q ≤ roundTo n r := by
  unfold roundTo
  have h10 : (0 : ℚ) < 10 ^ n := by positivity
  have hr : round (q * 10 ^ n) ≤ round (r * 10 ^ n) := by
    rw [round_eq, round_eq]
    exact Int.floor_mono (by nlinarith)
  gcongr


theorem roundTo_natCast (n k : ℕ) : roundTo n (k : ℚ) = k := by
  unfold roundTo
  have h10 : (0 : ℚ) < 10 ^ n := by positivity
  have : ((k : ℚ)) * 10 ^ n = ((k * 10 ^ n : ℕ) : ℚ) := by push_cast; ring
  rw [this, round_natCast]
  push_cast
  field_simp

theorem roundTo_nonneg {n : ℕ} {q : ℚ} (h : 0 ≤ q) : 0 ≤ roundTo n q := by
  have := roundTo_mono (n := n) h
  simpa [roundTo, round_zero] using this

theorem roundTo_zero (n : ℕ) : roundTo n 0 = 0 := by
  simpa using roundTo_natCast n 0

theorem roundTo_le_natCast {n k : ℕ} {q : ℚ} (h : q ≤ (k : ℚ)) :
    roundTo n q ≤ (k : ℚ) := by
  have := roundTo_mono (n := n) h
  rwa [roundTo_natCast] at this

theorem mem_pauseGaps_le {segs : List SpeechSegment} {g : ℚ}
    (hg : g ∈ pauseGaps segs) : 1/4 ≤ g := by
  unfold pauseGaps at hg
  exact of_decide_eq_true (List.mem_filter.mp hg).2

theorem pauseGaps_sum_nonneg (segs : List SpeechSegment) : 0 ≤ (pauseGaps segs).sum :=
  List.sum_nonneg fun _ hx => le_trans (by norm_num) (mem_pauseGaps_le hx)

theorem le_foldl_max (l : List ℚ) (a : ℚ) : a ≤ l.foldl max a := by
  induction l generalizing a with
  | nil => exact le_refl a
  | cons c cs ih => exact le_trans (le_max_left a c) (ih (max a c))

theorem mem_le_foldl_max {l : List ℚ} {x : ℚ} (a : ℚ) (hx : x ∈ l) :
    x ≤ l.foldl max a := by
  induction l generalizing a with
  | nil => cases hx
  | cons c cs ih =>
    rcases List.mem_cons.mp hx with h | h
    · subst h
      exact le_trans (le_max_right a x) (le_foldl_max cs (max a x))
    · exact ih (max a c) h

theorem mem_of_mem_splitOnSep {p : Char → Bool} {x : Char} :
    ∀ {l w : List Char}, w ∈ splitOnSep p l → x ∈ w → x ∈ l := by
  intro l
  induction l with
  | nil =>
    intro w hw hx
    simp only [splitOnSep, List.mem_singleton] at hw
    subst hw
    cases hx
  | cons c cs ih =>
    intro w hw hx
    by_cases hp : p c
    · rw [splitOnSep, if_pos hp] at hw
      rcases List.mem_cons.mp hw with h | h
      · subst h; cases hx
      · exact List.mem_cons_of_mem _ (ih h hx)
    · rw [splitOnSep, if_neg hp] at hw
      rcases hsp : splitOnSep p cs with _ | ⟨r, rs⟩
      · rw [hsp] at hw
        simp only [List.mem_singleton] at hw
        subst hw
        rcases List.mem_singleton.mp hx with rfl
        exact List.mem_cons_self _ _
      · rw [hsp] at hw
        rcases List.mem_cons.mp hw with h | h
        · subst h
          rcases List.mem_cons.mp hx with rfl | h'
          · exact List.mem_cons_self _ _
          · exact List.mem_cons_of_mem _
              (ih (hsp ▸ List.mem_cons_self r rs) h')
        · exact List.mem_cons_of_mem _
            (ih (hsp ▸ List.mem_cons_of_mem r h) hx)

theorem isWordChar_of_isClassLetter {c : Char} (h : isClassLetter c = true) :
    isWordChar c = true := by
  simp [isWordChar, h]

theorem not_isClassLetter_of_pyIsDigit {c : Char} (h : pyIsDigit c = true) :
    isClassLetter c = false := by
  simp only [pyIsDigit, Bool.and_eq_true, decide_eq_true_eq] at h
  rw [Bool.eq_false_iff]
  intro hcl
  rcases Bool.or_eq_true _ _ |>.mp hcl with h1 | h2
  · rcases Bool.and_eq_true _ _ |>.mp h1 with ⟨ha, _⟩
    have ha' : ('a' : Char) ≤ c := of_decide_eq_true ha
    exact absurd (le_trans ha' h.2) (by decide)
  · have hm : c ∈ accentedClassChars := by
      simpa [accentedClassChars] using h2
    fin_cases hm <;> exact absurd h.2 (by decide)

theorem pyLowerChar_eq_of_pyIsDigit {c : Char} (h : pyIsDigit c = true) :
    pyLowerChar c = c := by
  simp only [pyIsDigit, Bool.and_eq_true, decide_eq_true_eq] at h
  unfold pyLowerChar
  rw [if_neg]
  rintro ⟨hA, _⟩
  exact absurd (le_trans hA h.2) (by decide)

theorem pyLowerChar_eq_of_not_isWordChar {c : Char} (h : isWordChar c = false) :
    pyLowerChar c = c := by
  unfold pyLowerChar
  rw [if_neg]
  rintro ⟨hA, hZ⟩
  have : isWordChar c = true := by
    simp [isWordChar, hA, hZ]
  rw [h] at this
  cases this

theorem pyLowerList_eq_self {text : List Char}
    (H : ∀ c ∈ text, pyIsDigit c = true ∨ isWordChar c = false) :
    pyLowerList text = text := by
  unfold pyLowerList
  have h : ∀ c ∈ text, pyLowerChar c = c := fun c hc =>
    (H c hc).elim pyLowerChar_eq_of_pyIsDigit pyLowerChar_eq_of_not_isWordChar
  calc text.map pyLowerChar = text.map id := List.map_congr_left h
    _ = text := List.map_id text

theorem extractWords_eq_nil_of_no_letters {text : List Char}
    (H : ∀ c ∈ text, pyIsDigit c = true ∨ isWordChar c = false) :
    extractWords text = [] := by
  unfold extractWords
  rw [pyLowerList_eq_self H, List.filter_eq_nil_iff]
  intro w hw hcond
  obtain ⟨hne, hall⟩ := Bool.and_eq_true _ _ |>.mp hcond
  have hwne : w ≠ [] := by
    simpa [List.isEmpty_iff] using hne
  obtain ⟨x, hxw⟩ := List.exists_mem_of_ne_nil w hwne
  have hxl : x ∈ text := mem_of_mem_splitOnSep hw hxw
  have hxcl : isClassLetter x = true := List.all_eq_true.mp hall x hxw
  rcases H x hxl with hd | hnw
  · rw [not_isClassLetter_of_pyIsDigit hd] at hxcl
    cases hxcl
  · rw [isWordChar_of_isClassLetter hxcl] at hnw
    cases hnw

theorem runsLoop_cons (isV : Char → Bool) (c : Char) (cs : List Char) (prev : Bool) :
    runsLoop isV (c :: cs) prev =
      (if isV c && !prev then 1 else 0) + runsLoop isV cs (isV c) := rfl

theorem enLoop_cons (c : Char) (cs : List Char) (prev : Bool) (acc : ℕ) :
    enLoop (c :: cs) prev acc =
      if c = 'e' ∧ cs = [] ∧ 0 < acc then acc
      else enLoop cs (isEnglishVowel c) (acc + (if isEnglishVowel c && !prev then 1 else 0)) :=
  rfl

theorem runsLoop_nil (isV : Char → Bool) (prev : Bool) : runsLoop isV [] prev = 0 := rfl

theorem enLoop_nil (prev : Bool) (acc : ℕ) : enLoop [] prev acc = acc := rfl

theorem enLoop_eq (l : List Char) : ∀ (prev : Bool) (acc : ℕ),
    enLoop l prev acc =
      if l.getLast? = some 'e' ∧ 0 < acc + runsLoop isEnglishVowel l.dropLast prev
      then acc + runsLoop isEnglishVowel l.dropLast prev
      else acc + runsLoop isEnglishVowel l prev := by
  induction l with
  | nil =>
    intro prev acc
    split_ifs with h
    · exact absurd h.1 (by simp)
    · simp [enLoop, runsLoop]
  | cons c cs ih =>
    intro prev acc
    cases cs with
    | nil =>
      have hlast : ([c] : List Char).getLast? = some c := rfl
      have hdrop : ([c] : List Char).dropLast = [] := rfl
      rw [hlast, hdrop, enLoop_cons, runsLoop_cons isEnglishVowel c [] prev,
        runsLoop_nil, runsLoop_nil]
      simp only [enLoop_nil]
      by_cases hc : c = 'e'
      · subst hc
        simp only [eq_self_iff_true, true_and]
        split_ifs <;> omega
      · have h1 : ¬(c = 'e' ∧ True ∧ 0 < acc) := fun h => hc h.1
        have h2 : ¬(some c = some 'e' ∧ 0 < acc + 0) := fun h => hc (Option.some.inj h.1)
        rw [if_neg h1, if_neg h2]
        omega
    | cons d ds =>
      have hne : ¬(c = 'e' ∧ d :: ds = [] ∧ 0 < acc) := by
        rintro ⟨_, h, _⟩
        exact List.cons_ne_nil d ds h
      have hdrop : (c :: d :: ds).dropLast = c :: (d :: ds).dropLast := rfl
      rw [enLoop_cons, if_neg hne, ih, List.getLast?_cons_cons, hdrop,
        runsLoop_cons isEnglishVowel c ((d :: ds).dropLast) prev,
        runsLoop_cons isEnglishVowel c (d :: ds) prev]
      by_cases hP : (d :: ds).getLast? = some 'e'
      · simp only [hP, eq_self_iff_true, true_and]
        split_ifs <;> omega
      · simp only [hP, false_and, if_false]
        omega

/-! ## Claim theorems -/

/-- C1: the claim says every sub-score, the overall score, and the standalone
`calculate_fluency_score` lie in [0,100].  The engine's own sub-scores are
clamped, but `calculate_fluency_score` applies a +10 sustained-fluency bonus
with no upper clamp: with zero penalty ratios, no false starts and 101 words
it returns 110, contradicting the claim and the function's own docstring. -/
theorem calculate_fluency_score_exceeds_bound :
    calculate_fluency_score 0 0 0 101 = 110 := by
  norm_num [calculate_fluency_score]

/-- C6 (counterexample): with `total_duration = 0` and one 1-second gap, the
pause analyzer reports `pauses_per_minute = 0`, not the value 60 it would
report had the duration been normalized to 1.0 as the claim states. -/
theorem duration_normalization_counterexample :
    (analyzePauses 0 [⟨0, 1⟩, ⟨2, 3⟩]).pauses_per_minute = 0 ∧
    (analyzePauses 1 [⟨0, 1⟩, ⟨2, 3⟩]).pauses_per_minute = 60 ∧
    (analyzePauses 0 [⟨0, 1⟩, ⟨2, 3⟩]).pauses_per_minute ≠
      (analyzePauses 1 [⟨0, 1⟩, ⟨2, 3⟩]).pauses_per_minute := by
  refine ⟨?_, ?_, ?_⟩ <;>
    norm_num [analyzePauses, pauseGaps, segGaps, roundTo, round_eq]

/-- C6 (amended): for `total_duration ≤ 0` the analysis never rejects the
input; the rate analyzer normalizes the duration to 1.0 (so speaking rate,
articulation rate and words per minute are computed as if the duration were
1.0 s), while the pause analyzer and the fluency analyzer instead return 0
for `pauses_per_minute`, `pause_ratio` and `hesitation_rate`. -/
theorem duration_normalization_amended (text : List Char) (d : ℚ) (language : String)
    (segs : List SpeechSegment) (hd : d ≤ 0) :
    analyzeSpeechRate text d language segs = analyzeSpeechRate text 1 language segs ∧
    (analyzePauses d segs).pauses_per_minute = 0 ∧
    (analyzePauses d segs).pause_ratio = 0 ∧
    (analyzeFluency text d segs).hesitation_rate = 0 := by
  have hnd : ¬(0 : ℚ) < d := not_lt.mpr hd
  refine ⟨?_, ?_, ?_, ?_⟩
  · simp only [analyzeSpeechRate, if_pos hd]
    norm_num
  · have e : (analyzePauses d segs).pauses_per_minute =
        roundTo 1 (if 0 < d then (((pauseGaps segs).length : ℚ) / d) * 60 else 0) := rfl
    rw [e, if_neg hnd, roundTo_zero]
  · have e : (analyzePauses d segs).pause_ratio =
        roundTo 3 (if 0 < d then (pauseGaps segs).sum / d else 0) := rfl
    rw [e, if_neg hnd, roundTo_zero]
  · have e : (analyzeFluency text d segs).hesitation_rate =
        roundTo 2 (hesitationRate d segs) := rfl
    rw [e]
    unfold hesitationRate
    rw [if_neg hnd, roundTo_zero]

/-- C6 (witness): the amended theorem applied at duration 0. -/
theorem duration_normalization_witness :
    (0 : ℚ) ≤ 0 ∧
    analyzeSpeechRate ['o', 'i'] 0 "pt-BR" [] = analyzeSpeechRate ['o', 'i'] 1 "pt-BR" [] ∧
    (analyzePauses 0 ([] : List SpeechSegment)).pauses_per_minute = 0 :=
  ⟨le_refl 0, (duration_normalization_amended ['o', 'i'] 0 "pt-BR" [] (le_refl 0)).1,
    (duration_normalization_amended ['o', 'i'] 0 "pt-BR" [] (le_refl 0)).2.1⟩

/-- C4 (counterexample): with `total_duration = 0.05` and a counted pause of
0.5 s, the speech-duration floor `max(0.1, ...)` exceeds the total duration,
so the articulation rate (1200) drops below the speaking rate (2400) even
though `pause_duration > 0`. -/
theorem rate_ordering_counterexample :
    0 < pauseDuration [⟨0, 1⟩, ⟨3/2, 2⟩] ∧
    (analyzeSpeechRate "ola".toList (1/20) "pt-BR" [⟨0, 1⟩, ⟨3/2, 2⟩]).articulation_rate_spm <
      (analyzeSpeechRate "ola".toList (1/20) "pt-BR" [⟨0, 1⟩, ⟨3/2, 2⟩]).speaking_rate_spm := by
  have hs : countSyllablesText ['o', 'l', 'a'] "pt-BR" = 2 := by decide
  constructor
  · norm_num [pauseDuration, pauseGaps, segGaps]
  · norm_num [analyzeSpeechRate, pauseDuration, pauseGaps, segGaps, roundTo, round_eq, hs]

/-- C4 (amended): whenever the computed pause duration is positive and the
input duration is not a positive value below the 0.1 s speech-duration floor
(`d ≤ 0` is normalized to 1.0), the returned articulation rate is at least
the returned speaking rate, the ordering surviving the 1-decimal rounding. -/
theorem rate_ordering_amended (text : List Char) (d : ℚ) (language : String)
    (segs : List SpeechSegment) (hd : d ≤ 0 ∨ 1/10 ≤ d)
    (hp : 0 < pauseDuration segs) :
    (analyzeSpeechRate text d language segs).speaking_rate_spm ≤
      (analyzeSpeechRate text d language segs).articulation_rate_spm := by
  have hsp : (analyzeSpeechRate text d language segs).speaking_rate_spm =
      roundTo 1 (((countSyllablesText text language : ℚ) / (if d ≤ 0 then 1 else d)) * 60) :=
    rfl
  have har : (analyzeSpeechRate text d language segs).articulation_rate_spm =
      roundTo 1 (((countSyllablesText text language : ℚ) /
        (max (1/10) ((if d ≤ 0 then 1 else d) - pauseDuration segs))) * 60) := rfl
  rw [hsp, har]
  apply roundTo_mono
  have hD1 : (1 : ℚ)/10 ≤ (if d ≤ 0 then 1 else d) := by
    rcases hd with h | h
    · rw [if_pos h]
      norm_num
    · rw [if_neg (by linarith)]
      exact h
  have hD0 : (0 : ℚ) < (if d ≤ 0 then 1 else d) := by linarith
  have hs0 : (0 : ℚ) < max (1/10) ((if d ≤ 0 then 1 else d) - pauseDuration segs) :=
    lt_of_lt_of_le (by norm_num) (le_max_left _ _)
  have hsle : max (1/10 : ℚ) ((if d ≤ 0 then 1 else d) - pauseDuration segs) ≤
      (if d ≤ 0 then 1 else d) :=
    max_le hD1 (by linarith)
  have hdiv : (countSyllablesText text language : ℚ) / (if d ≤ 0 then 1 else d) ≤
      (countSyllablesText text language : ℚ) /
        (max (1/10) ((if d ≤ 0 then 1 else d) - pauseDuration segs)) := by
    gcongr
  nlinarith

/-- C4 (witness): the amended ordering at a well-formed input. -/
theorem rate_ordering_witness :
    ((10 : ℚ) ≤ 0 ∨ (1 : ℚ)/10 ≤ 10) ∧ 0 < pauseDuration [⟨0, 1⟩, ⟨2, 3⟩] ∧
    (analyzeSpeechRate "ola".toList 10 "pt-BR" [⟨0, 1⟩, ⟨2, 3⟩]).speaking_rate_spm ≤
      (analyzeSpeechRate "ola".toList 10 "pt-BR" [⟨0, 1⟩, ⟨2, 3⟩]).articulation_rate_spm :=
  ⟨Or.inr (by norm_num), by norm_num [pauseDuration, pauseGaps, segGaps],
    rate_ordering_amended "ola".toList 10 "pt-BR" [⟨0, 1⟩, ⟨2, 3⟩]
      (Or.inr (by norm_num)) (by norm_num [pauseDuration, pauseGaps, segGaps])⟩

/-- C8: for every duration and segment list (ordered or not), the pause
analyzer counts only gaps of at least 0.25 s, every returned field is
non-negative, the returned total pause duration is the (rounded) sum of the
counted gaps, and the longest pause is at least the average pause. -/
theorem pause_invariants (d : ℚ) (segs : List SpeechSegment) :
    0 ≤ (analyzePauses d segs).total_pause_duration ∧
    0 ≤ (analyzePauses d segs).average_pause_duration ∧
    0 ≤ (analyzePauses d segs).longest_pause ∧
    0 ≤ (analyzePauses d segs).pauses_per_minute ∧
    0 ≤ (analyzePauses d segs).pause_ratio ∧
    (analyzePauses d segs).total_pause_duration = roundTo 2 (pauseGaps segs).sum ∧
    (∀ g ∈ pauseGaps segs, 1/4 ≤ g) ∧
    (analyzePauses d segs).average_pause_duration ≤ (analyzePauses d segs).longest_pause := by
  have htot : (analyzePauses d segs).total_pause_duration =
      roundTo 2 (pauseGaps segs).sum := rfl
  have havg : (analyzePauses d segs).average_pause_duration =
      roundTo 2 (if 0 < (pauseGaps segs).length then
        (pauseGaps segs).sum / ((pauseGaps segs).length : ℚ) else 0) := rfl
  have hlng : (analyzePauses d segs).longest_pause =
      roundTo 2 (if 0 < (pauseGaps segs).length then (pauseGaps segs).foldl max 0 else 0) :=
    rfl
  have hppm : (analyzePauses d segs).pauses_per_minute =
      roundTo 1 (if 0 < d then (((pauseGaps segs).length : ℚ) / d) * 60 else 0) := rfl
  have hratio : (analyzePauses d segs).pause_ratio =
      roundTo 3 (if 0 < d then (pauseGaps segs).sum / d else 0) := rfl
  refine ⟨?_, ?_, ?_, ?_, ?_, htot, fun g hg => mem_pauseGaps_le hg, ?_⟩
  · rw [htot]
    exact roundTo_nonneg (pauseGaps_sum_nonneg segs)
  · rw [havg]
    apply roundTo_nonneg
    split_ifs with h
    · exact div_nonneg (pauseGaps_sum_nonneg segs) (Nat.cast_nonneg _)
    · exact le_refl 0
  · rw [hlng]
    apply roundTo_nonneg
    split_ifs with h
    · exact le_foldl_max (pauseGaps segs) 0
    · exact le_refl 0
  · rw [hppm]
    apply roundTo_nonneg
    split_ifs with h
    · exact mul_nonneg (div_nonneg (Nat.cast_nonneg _) (le_of_lt h)) (by norm_num)
    · exact le_refl 0
  · rw [hratio]
    apply roundTo_nonneg
    split_ifs with h
    · exact div_nonneg (pauseGaps_sum_nonneg segs) (le_of_lt h)
    · exact le_refl 0
  · rw [havg, hlng]
    apply roundTo_mono
    split_ifs with h
    · have hmax : ∀ x ∈ pauseGaps segs, x ≤ (pauseGaps segs).foldl max 0 :=
        fun x hx => mem_le_foldl_max 0 hx
      have hsum : (pauseGaps segs).sum ≤
          ((pauseGaps segs).length : ℚ) * (pauseGaps segs).foldl max 0 := by
        have := List.sum_le_card_nsmul (pauseGaps segs) _ hmax
        simpa [nsmul_eq_mul] using this
      have hn : (0 : ℚ) < ((pauseGaps segs).length : ℚ) := by exact_mod_cast h
      rw [div_le_iff₀ hn]
      linarith
    · exact le_refl 0

/-- C8 (witness): the gap of the concrete segment pair is a counted pause and
satisfies the 0.25 s bound via the invariant theorem. -/
theorem pause_invariants_witness :
    (1 : ℚ)/2 ∈ pauseGaps [⟨0, 1⟩, ⟨3/2, 2⟩] ∧ (1 : ℚ)/4 ≤ 1/2 := by
  have h : pauseGaps [⟨0, 1⟩, ⟨(3 : ℚ)/2, 2⟩] = [1/2] := by
    norm_num [pauseGaps, segGaps]
  have hm : (1 : ℚ)/2 ∈ pauseGaps [⟨0, 1⟩, ⟨3/2, 2⟩] := by
    rw [h]
    exact List.mem_singleton.mpr rfl
  exact ⟨hm, (pause_invariants 10 [⟨0, 1⟩, ⟨3/2, 2⟩]).2.2.2.2.2.2.1 (1/2) hm⟩

/-- C7: for every transcript the vocabulary analyzer returns
`unique_words ≤ total_words` and a type-token ratio in [0,1]; a transcript
with no extracted words yields the all-zero metrics without failing; and the
standalone `calculate_ttr` also lies in [0,1] for every word list. -/
theorem vocabulary_invariants (text : List Char) (language : String)
    (words : List (List Char)) :
    (analyzeVocabulary text language).unique_words ≤
      (analyzeVocabulary text language).total_words ∧
    0 ≤ (analyzeVocabulary text language).vocabulary_richness ∧
    (analyzeVocabulary text language).vocabulary_richness ≤ 1 ∧
    (extractWords text = [] →
      analyzeVocabulary text language = ⟨0, 0, 0, 0, 0, 0, 0, 0, 0⟩) ∧
    0 ≤ calculate_ttr words ∧ calculate_ttr words ≤ 1 := by
  have httr : 0 ≤ calculate_ttr words ∧ calculate_ttr words ≤ 1 := by
    unfold calculate_ttr
    split_ifs with h
    · norm_num
    · have hlen : (0 : ℚ) < (words.length : ℚ) := by
        exact_mod_cast List.length_pos.mpr h
      constructor
      · exact div_nonneg (Nat.cast_nonneg _) (le_of_lt hlen)
      · rw [div_le_one hlen]
        exact_mod_cast List.Sublist.length_le (List.dedup_sublist words)
  by_cases hws : (extractWords text).length = 0
  · have hz : analyzeVocabulary text language = ⟨0, 0, 0, 0, 0, 0, 0, 0, 0⟩ := by
      unfold analyzeVocabulary
      rw [if_pos hws]
    rw [hz]
    refine ⟨le_refl 0, le_refl 0, by norm_num, fun _ => rfl, httr⟩
  · have hlen : (0 : ℚ) < ((extractWords text).length : ℚ) := by
      exact_mod_cast Nat.pos_of_ne_zero hws
    have huniq : (analyzeVocabulary text language).unique_words =
        (extractWords text).dedup.length := by
      unfold analyzeVocabulary
      rw [if_neg hws]
    have htotal : (analyzeVocabulary text language).total_words =
        (extractWords text).length := by
      unfold analyzeVocabulary
      rw [if_neg hws]
    have hrich : (analyzeVocabulary text language).vocabulary_richness =
        roundTo 3 (((extractWords text).dedup.length : ℚ) / ((extractWords text).length : ℚ)) := by
      unfold analyzeVocabulary
      rw [if_neg hws]
    have hde : ((extractWords text).dedup.length : ℚ) / ((extractWords text).length : ℚ) ≤ 1 := by
      rw [div_le_one hlen]
      exact_mod_cast List.Sublist.length_le (List.dedup_sublist _)
    refine ⟨?_, ?_, ?_, ?_, httr⟩
    · rw [huniq, htotal]
      exact List.Sublist.length_le (List.dedup_sublist _)
    · rw [hrich]
      exact roundTo_nonneg (div_nonneg (Nat.cast_nonneg _) (le_of_lt hlen))
    · rw [hrich]
      have := roundTo_le_natCast (n := 3) (k := 1) (by simpa using hde)
      simpa using this
    · intro h
      exact absurd (List.length_eq_zero.mpr h) hws

/-- C7 (witness): a transcript with no extractable words yields the all-zero
vocabulary metrics. -/
theorem vocabulary_invariants_witness :
    extractWords ['1', '2', '3'] = [] ∧
    analyzeVocabulary ['1', '2', '3'] "pt-BR" = ⟨0, 0, 0, 0, 0, 0, 0, 0, 0⟩ :=
  ⟨by decide, (vocabulary_invariants ['1', '2', '3'] "pt-BR" []).2.2.2.1 (by decide)⟩

/-- C2: `detect_language` is total; with no extracted tokens it returns
language "unknown" with confidence 0 and both scores 0; otherwise the higher
score wins only if it exceeds 5, with confidence
`winning / (pt + en + 0.1)` capped at 0.99 (rounded to 2 decimals at the
boundary), and on a tie or when neither score exceeds 5 it returns PT-BR at
confidence 0.5. -/
theorem detect_language_spec (text : List Char) :
    (extractWords text = [] → detectLanguage text = ⟨"unknown", 0, 0, 0⟩) ∧
    (extractWords text ≠ [] →
      ((enScore text < ptScore text ∧ 5 < ptScore text →
        (detectLanguage text).detected_language = "pt-BR" ∧
        (detectLanguage text).confidence =
          roundTo 2 (min (ptScore text / (ptScore text + enScore text + 1/10)) (99/100))) ∧
      (ptScore text < enScore text ∧ 5 < enScore text →
        (detectLanguage text).detected_language = "en-US" ∧
        (detectLanguage text).confidence =
          roundTo 2 (min (enScore text / (ptScore text + enScore text + 1/10)) (99/100))) ∧
      (ptScore text = enScore text ∨ (ptScore text ≤ 5 ∧ enScore text ≤ 5) →
        (detectLanguage text).detected_language = "pt-BR" ∧
        (detectLanguage text).confidence = 1/2))) := by
  constructor
  · intro h
    unfold detectLanguage
    rw [if_pos (List.length_eq_zero.mpr h)]
  · intro hne
    have hlen : ¬((extractWords text).length = 0) := fun h => hne (List.length_eq_zero.mp h)
    refine ⟨?_, ?_, ?_⟩
    · rintro ⟨h1, h2⟩
      simp only [detectLanguage]
      rw [if_neg hlen, if_pos ⟨h1, h2⟩]
      exact ⟨rfl, rfl⟩
    · rintro ⟨h1, h2⟩
      have hc1 : ¬(enScore text < ptScore text ∧ 5 < ptScore text) := by
        rintro ⟨h', _⟩
        exact absurd h1 (not_lt.mpr (le_of_lt h'))
      simp only [detectLanguage]
      rw [if_neg hlen, if_neg hc1, if_pos ⟨h1, h2⟩]
      exact ⟨rfl, rfl⟩
    · intro h
      have hc1 : ¬(enScore text < ptScore text ∧ 5 < ptScore text) := by
        rintro ⟨hlt, hgt⟩
        rcases h with heq | ⟨hp5, _⟩
        · exact absurd heq (ne_of_gt hlt)
        · exact absurd hgt (not_lt.mpr hp5)
      have hc2 : ¬(ptScore text < enScore text ∧ 5 < enScore text) := by
        rintro ⟨hlt, hgt⟩
        rcases h with heq | ⟨_, he5⟩
        · exact absurd heq (ne_of_lt hlt)
        · exact absurd hgt (not_lt.mpr he5)
      simp only [detectLanguage]
      rw [if_neg hlen, if_neg hc1, if_neg hc2]
      refine ⟨rfl, ?_⟩
      show roundTo 2 (1/2) = 1/2
      norm_num [roundTo, round_eq]

/-- C2 (witness): the empty transcript takes the zero-token branch. -/
theorem detect_language_spec_witness :
    extractWords [] = [] ∧ detectLanguage [] = ⟨"unknown", 0, 0, 0⟩ :=
  ⟨rfl, (detect_language_spec []).1 rfl⟩

/-- C3: the returned fluency score is 100 minus the repetition, self-correction,
hesitation and incomplete-sentence penalties, clamped to [0,100] (and rounded
to one decimal); with no extracted words no penalty applies and the score is
exactly 100. -/
theorem fluency_score_formula (text : List Char) (d : ℚ) (segs : List SpeechSegment) :
    (extractWords text ≠ [] →
      (analyzeFluency text d segs).fluency_score =
        roundTo 1 (max 0 (min 100 (100 -
          (((repetitionCount text : ℚ) / ((extractWords text).length : ℚ)) * 20 +
            ((selfCorrectionCount text : ℚ) / ((extractWords text).length : ℚ)) * 15 +
            hesitationRate d segs * 5 + (incompleteSentenceCount text : ℚ) * 3))))) ∧
    (extractWords text = [] → (analyzeFluency text d segs).fluency_score = 100) := by
  have e : (analyzeFluency text d segs).fluency_score =
      roundTo 1 (max 0 (min 100 (100 -
        (if 0 < (extractWords text).length then
          ((repetitionCount text : ℚ) / ((extractWords text).length : ℚ)) * 20 +
            ((selfCorrectionCount text : ℚ) / ((extractWords text).length : ℚ)) * 15 +
            hesitationRate d segs * 5 + (incompleteSentenceCount text : ℚ) * 3
        else 0)))) := rfl
  constructor
  · intro h
    rw [e, if_pos (List.length_pos.mpr h)]
  · intro h
    rw [e, if_neg (by rw [h]; exact lt_irrefl 0)]
    have h100 : max (0 : ℚ) (min 100 (100 - 0)) = 100 := by norm_num
    rw [h100]
    have := roundTo_natCast 1 100
    exact_mod_cast this

/-- C3 (witness): `"a a a a."` has 4 identical words, 3 repetitions, and no
other penalty, so the score is 100 − (3/4)·20 = 85. -/
theorem fluency_score_formula_witness :
    extractWords "a a a a.".toList ≠ [] ∧
    (analyzeFluency "a a a a.".toList 10 []).fluency_score = 85 := by
  have h1 : extractWords "a a a a.".toList ≠ [] := by decide
  have h2 := (fluency_score_formula "a a a a.".toList 10 []).1 h1
  refine ⟨h1, ?_⟩
  rw [h2]
  have hr : repetitionCount ['a', ' ', 'a', ' ', 'a', ' ', 'a', '.'] = 3 := by decide
  have hsc : selfCorrectionCount ['a', ' ', 'a', ' ', 'a', ' ', 'a', '.'] = 0 := by decide
  have hinc : incompleteSentenceCount ['a', ' ', 'a', ' ', 'a', ' ', 'a', '.'] = 0 := by decide
  have hlenw : (extractWords ['a', ' ', 'a', ' ', 'a', ' ', 'a', '.']).length = 4 := by decide
  norm_num [hr, hsc, hinc, hlenw, hesitationRate, hesitationCount, segGaps, roundTo, round_eq]

/-- C5 (counterexample): the claim attributes the `-ed` subtraction (and the
exception table) to the engine's EN-US syllable counter, but the engine's
counter has neither: on "jumped" it returns 2 while the stated corrections
(implemented by the utility counter in `utils/text.py`) give 1. -/
theorem english_syllables_counterexample :
    countSyllablesEnglishService "jumped".toList = 2 ∧
    countSyllablesEnglishText "jumped".toList = 1 ∧
    countSyllablesEnglishService "jumped".toList ≠
      countSyllablesEnglishText "jumped".toList := by
  refine ⟨by decide, by decide, by decide⟩

/-- C5 (amended): the engine's EN-US counter counts vowel runs over
{a,e,i,o,u,y}, a trailing `e` does not start a new run when the count is
already ≥ 1, a `-le` ending after a consonant adds one syllable, and the
result has floor 1; the exception table (e.g. "the" ↦ 1) and the `-ed`
subtraction (unless preceded by `t` or `d`, e.g. "table" keeps its `-le`
syllable) exist only in the utility counter of `utils/text.py`, which also
returns at least 1 for every non-empty word. -/
theorem english_syllables_amended (w : List Char) :
    countSyllablesEnglishService w =
      max 1 (vowelRunCount isEnglishVowel (stripSilentE (pyLowerList w)) +
        leBonus (pyLowerList w)) ∧
    1 ≤ countSyllablesEnglishService w ∧
    (pyStrip (pyLowerList w) ≠ [] → 1 ≤ countSyllablesEnglishText w) ∧
    countSyllablesEnglishText ['t', 'h', 'e'] = 1 ∧
    countSyllablesEnglishText ['t', 'a', 'b', 'l', 'e'] = 2 := by
  refine ⟨?_, ?_, ?_, by decide, by decide⟩
  · have h1 : countSyllablesEnglishService w =
        max 1 ((if (pyLowerList w).getLast? = some 'e' ∧
            0 < 0 + runsLoop isEnglishVowel (pyLowerList w).dropLast false then
          0 + runsLoop isEnglishVowel (pyLowerList w).dropLast false
        else 0 + runsLoop isEnglishVowel (pyLowerList w) false) + leBonus (pyLowerList w)) := by
      simp only [countSyllablesEnglishService]
      rw [enLoop_eq]
    rw [h1]
    unfold stripSilentE vowelRunCount
    by_cases hP : (pyLowerList w).getLast? = some 'e'
    · simp only [hP, eq_self_iff_true, true_and, zero_add]
      split_ifs <;> omega
    · simp only [hP, false_and, if_false, zero_add]
  · exact Nat.le_max_left 1 _
  · intro h
    unfold countSyllablesEnglishText
    rw [if_neg h]
    by_cases hex : englishSyllableExceptions.contains (pyStrip (pyLowerList w))
    · rw [if_pos hex]
    · rw [if_neg hex]
      exact Nat.le_max_left 1 _

/-- C5 (witness): the amended theorem applied at "the". -/
theorem english_syllables_witness :
    pyStrip (pyLowerList ['t', 'h', 'e']) ≠ [] ∧
    1 ≤ countSyllablesEnglishText ['t', 'h', 'e'] :=
  ⟨by decide, (english_syllables_amended ['t', 'h', 'e']).2.2.1 (by decide)⟩

/-- C9 (counterexample): a token containing a non-letter character is not
always dropped entirely: the hyphen in "ab-cd" is a non-word character, so the
regex word boundaries split the token into the two words "ab" and "cd"
instead of discarding it. -/
theorem extract_words_counterexample :
    extractWords "ab-cd".toList ≠ [] ∧
    extractWords "ab-cd".toList = [['a', 'b'], ['c', 'd']] := by
  refine ⟨by decide, by decide⟩

/-- C9 (amended): word extraction yields only non-empty runs of the
Latin/accented letter class; a letter run adjacent to a digit or underscore
(word characters outside the class) is dropped whole, while non-word symbols
merely split the text; consequently a transcript consisting only of digits
and symbols behaves exactly like an empty transcript: no words, language
"unknown", all-zero vocabulary metrics, and fluency score 100. -/
theorem nonletter_transcript_amended (text : List Char) (d : ℚ) (language : String)
    (segs : List SpeechSegment) :
    (∀ w ∈ extractWords text, w ≠ [] ∧ ∀ c ∈ w, isClassLetter c = true) ∧
    ((∀ c ∈ text, pyIsDigit c = true ∨ isWordChar c = false) →
      extractWords text = [] ∧
      detectLanguage text = ⟨"unknown", 0, 0, 0⟩ ∧
      analyzeVocabulary text language = ⟨0, 0, 0, 0, 0, 0, 0, 0, 0⟩ ∧
      (analyzeFluency text d segs).fluency_score = 100) := by
  constructor
  · intro w hw
    unfold extractWords at hw
    obtain ⟨-, hcond⟩ := List.mem_filter.mp hw
    obtain ⟨hne, hall⟩ := Bool.and_eq_true _ _ |>.mp hcond
    refine ⟨?_, fun c hc => List.all_eq_true.mp hall c hc⟩
    simpa [List.isEmpty_iff] using hne
  · intro H
    have h0 : extractWords text = [] := extractWords_eq_nil_of_no_letters H
    have hlen : (extractWords text).length = 0 := List.length_eq_zero.mpr h0
    refine ⟨h0, ?_, ?_, ?_⟩
    · unfold detectLanguage
      rw [if_pos hlen]
    · unfold analyzeVocabulary
      rw [if_pos hlen]
    · have e : (analyzeFluency text d segs).fluency_score =
          roundTo 1 (max 0 (min 100 (100 -
            (if 0 < (extractWords text).length then
              ((repetitionCount text : ℚ) / ((extractWords text).length : ℚ)) * 20 +
                ((selfCorrectionCount text : ℚ) / ((extractWords text).length : ℚ)) * 15 +
                hesitationRate d segs * 5 + (incompleteSentenceCount text : ℚ) * 3
            else 0)))) := rfl
      rw [e, if_neg (by rw [hlen]; exact lt_irrefl 0)]
      have h100 : max (0 : ℚ) (min 100 (100 - 0)) = 100 := by norm_num
      rw [h100]
      exact_mod_cast roundTo_natCast 1 100

/-- C9 (witness): the digit-and-symbol transcript "12 !" detects as
"unknown". -/
theorem nonletter_transcript_witness :
    (∀ c ∈ ['1', '2', ' ', '!'], pyIsDigit c = true ∨ isWordChar c = false) ∧
    detectLanguage ['1', '2', ' ', '!'] = ⟨"unknown", 0, 0, 0⟩ :=
  ⟨by decide,
    ((nonletter_transcript_amended ['1', '2', ' ', '!'] 1 "pt-BR" []).2 (by decide)).2.1⟩

/-- Length of the three-way message choices in `generate_feedback`. -/
theorem length_ite_three {α : Type} (c₁ c₂ : Prop) [Decidable c₁] [Decidable c₂]
    (x y z : α) : (if c₁ then [x] else if c₂ then [y] else [z]).length = 1 := by
  split_ifs <;> rfl

/-- C10: `generate_feedback` always emits at least the language line, a pace
classification line, a words-per-minute line and a fluency-level line, so the
feedback list has at least 4 entries for every metrics input. -/
theorem generate_feedback_min_length (ld : LanguageDetection) (sr : SpeechRateMetrics)
    (p : PauseMetrics) (v : VocabularyMetrics) (f : FluencyMetrics) :
    4 ≤ (generateFeedback ld sr p v f).1.length := by
  by_cases h : ld.detected_language = "en-US"
  · simp only [generateFeedback, if_pos h, List.length_append, List.length_singleton,
      length_ite_three]
    omega
  · simp only [generateFeedback, if_neg h, List.length_append, List.length_singleton,
      length_ite_three]
    omega

/-! ## Engine-side score bounds (context for C1)

The engine's own sub-scores and the weighted overall score are clamped into
[0,100]; the C1 violation is confined to the standalone
`calculate_fluency_score` helper. -/

theorem roundTo_le_hundred {n : ℕ} {q : ℚ} (h : q ≤ 100) : roundTo n q ≤ 100 := by
  have h' : q ≤ ((100 : ℕ) : ℚ) := by exact_mod_cast h
  have := roundTo_le_natCast (n := n) h'
  exact_mod_cast this

theorem scoreSpeechRate_bounds (sr : SpeechRateMetrics) (language : String) :
    0 ≤ scoreSpeechRate sr language ∧ scoreSpeechRate sr language ≤ 100 := by
  have haux : ∀ x y : ℚ, 0 ≤ x - y → max 0 (100 - (x - y) * 2) ≤ 100 := fun x y h =>
    max_le (by norm_num) (by nlinarith)
  simp only [scoreSpeechRate]
  constructor
  · split_ifs <;> norm_num
  · split_ifs with h1 h2 h3 h4 h5
    · norm_num
    · exact haux _ _ (sub_nonneg.mpr (le_of_lt h3))
    · exact haux _ _ (sub_nonneg.mpr
        (le_of_lt (not_le.mp fun hle => h2 ⟨not_lt.mp h3, hle⟩)))
    · norm_num
    · exact haux _ _ (sub_nonneg.mpr (le_of_lt h5))
    · exact haux _ _ (sub_nonneg.mpr
        (le_of_lt (not_le.mp fun hle => h4 ⟨not_lt.mp h5, hle⟩)))

theorem scorePauses_bounds (p : PauseMetrics) :
    0 ≤ scorePauses p ∧ scorePauses p ≤ 100 := by
  simp only [scorePauses]
  refine ⟨le_max_left 0 _, ?_⟩
  apply max_le (by norm_num)
  have hbase : (if 1/10 ≤ p.pause_ratio ∧ p.pause_ratio ≤ 1/4 then (100 : ℚ)
      else if p.pause_ratio < 1/10 then 80
      else max 0 (100 - (p.pause_ratio - 1/4) * 200)) ≤ 100 := by
    split_ifs with ha hb
    · norm_num
    · norm_num
    · apply max_le (by norm_num)
      have := not_le.mp fun hle => ha ⟨not_lt.mp hb, hle⟩
      nlinarith
  by_cases hl : 3 < p.longest_pause
  · rw [if_pos hl]
    linarith
  · rw [if_neg hl]
    exact hbase

theorem scoreVocabulary_bounds (v : VocabularyMetrics) :
    0 ≤ scoreVocabulary v ∧ scoreVocabulary v ≤ 100 :=
  ⟨le_max_left 0 _, max_le (by norm_num) (min_le_left _ _)⟩

theorem analyzeFluency_score_bounds (text : List Char) (d : ℚ)
    (segs : List SpeechSegment) :
    0 ≤ (analyzeFluency text d segs).fluency_score ∧
      (analyzeFluency text d segs).fluency_score ≤ 100 := by
  have e : (analyzeFluency text d segs).fluency_score =
      roundTo 1 (max 0 (min 100 (100 -
        (if 0 < (extractWords text).length then
          ((repetitionCount text : ℚ) / ((extractWords text).length : ℚ)) * 20 +
            ((selfCorrectionCount text : ℚ) / ((extractWords text).length : ℚ)) * 15 +
            hesitationRate d segs * 5 + (incompleteSentenceCount text : ℚ) * 3
        else 0)))) := rfl
  rw [e]
  exact ⟨roundTo_nonneg (le_max_left _ _),
    roundTo_le_hundred (max_le (by norm_num) (min_le_left _ _))⟩

theorem overallScore_bounds (sr : SpeechRateMetrics) (p : PauseMetrics)
    (v : VocabularyMetrics) (language : String) (text : List Char) (d : ℚ)
    (segs : List SpeechSegment) :
    0 ≤ overallScore sr p v (analyzeFluency text d segs) language ∧
      overallScore sr p v (analyzeFluency text d segs) language ≤ 100 := by
  obtain ⟨a0, a1⟩ := scoreSpeechRate_bounds sr language
  obtain ⟨b0, b1⟩ := scorePauses_bounds p
  obtain ⟨c0, c1⟩ := scoreVocabulary_bounds v
  obtain ⟨f0, f1⟩ := analyzeFluency_score_bounds text d segs
  unfold overallScore
  constructor
  · apply roundTo_nonneg
    positivity
  · apply roundTo_le_hundred
    linarith
